import Mathlib

/-!
# Verification of the object-placement subsystem of `robosuite`

Shallow embedding of the placement sampler, grid/round-robin schedule
construction, and scene-composition logic of the repository
(`MujocoManip/models/pegs_task.py` and
`robosuite/environments/sawyer_assembly.py`), together with proofs of the
specification's claims about them.

Conventions:
* Python floats are modelled as rationals `ℚ` (all the arithmetic involved is
  field arithmetic); 3-vectors as `ℚ × ℚ × ℚ`.
* `np.random.uniform(low, high)` is modelled as `low + u * (high - low)` for a
  unit draw `u`; the RNG is an explicit stream `u : ℕ → ℚ` of unit draws,
  consumed sequentially exactly where the Python code draws.
* The comparison `np.linalg.norm(pos - pos2, 2) <= r + h` is encoded in squared
  form, `dist3sq pos pos2 ≤ (r + h)^2`, which is equivalent whenever
  `0 ≤ r + h` (both sides of the original comparison are then nonnegative);
  the sum of two horizontal radii is nonnegative for all real object sets.
* `raise RandomizationError(msg)` is modelled as `Except.error msg`.
-/

namespace RobosuitePlacement

abbrev Vec3 := ℚ × ℚ × ℚ

/-- `np.random.uniform(low=lo, high=hi)` as a function of the unit draw `u`:
numpy computes `lo + u * (hi - lo)` (and does not require `lo ≤ hi`). -/
def uniformDraw (lo hi u : ℚ) : ℚ := lo + u * (hi - lo)

/-- The per-object geometric metadata the sampler reads
(`obj_mjcf.get_horizontal_radius()` and `obj_mjcf.get_bottom_offset()`). -/
structure MujocoObject where
  horizontal_radius : ℚ
  bottom_offset : Vec3
  deriving DecidableEq

/-- Configuration state of `UniformRandomPegsSampler` after `__init__` and
`setup` (the latter stores the arena's surface offset and size, passed in by
`PegsTask.__init__` as `shelf_offset`/`shelf_size`). Ranges are stored exactly
as given (no validation happens in `__init__`). -/
structure UniformRandomPegsSampler where
  x_range : Option (ℚ × ℚ)
  y_range : Option (ℚ × ℚ)
  z_range : Option (ℚ × ℚ)
  ensure_object_boundary_in_range : Bool
  z_rotation : Bool
  table_size : Vec3
  table_top_offset : Vec3
  deriving DecidableEq

namespace UniformRandomPegsSampler

/-- `UniformRandomPegsSampler.sample_x`: default range
`[-table_size[0]/2, table_size[0]/2]`, normalize ends with `min`/`max`, shrink
both ends by the object's horizontal radius when
`ensure_object_boundary_in_range`, then draw uniformly. -/
def sample_x (s : UniformRandomPegsSampler) (object_horizontal_radius : ℚ) (u : ℚ) : ℚ :=
  let x_range := s.x_range.getD (-(s.table_size.1) / 2, s.table_size.1 / 2)
  let minimum := min x_range.1 x_range.2
  let maximum := max x_range.1 x_range.2
  let minimum' := if s.ensure_object_boundary_in_range then
    minimum + object_horizontal_radius else minimum
  let maximum' := if s.ensure_object_boundary_in_range then
    maximum - object_horizontal_radius else maximum
  uniformDraw minimum' maximum' u

/-- `UniformRandomPegsSampler.sample_y`: identical to `sample_x` except that it
reads `self.y_range`; NOTE the source's default range also uses
`self.table_size[0]` (the x extent), exactly as in the Python code. -/
def sample_y (s : UniformRandomPegsSampler) (object_horizontal_radius : ℚ) (u : ℚ) : ℚ :=
  let y_range := s.y_range.getD (-(s.table_size.1) / 2, s.table_size.1 / 2)
  let minimum := min y_range.1 y_range.2
  let maximum := max y_range.1 y_range.2
  let minimum' := if s.ensure_object_boundary_in_range then
    minimum + object_horizontal_radius else minimum
  let maximum' := if s.ensure_object_boundary_in_range then
    maximum - object_horizontal_radius else maximum
  uniformDraw minimum' maximum' u

/-- `UniformRandomPegsSampler.sample_z`: default range `[0, 1]`; the shrink
amount is whatever is passed as `object_horizontal_radius` (the `sample` loop
passes the constant `0.01`). -/
def sample_z (s : UniformRandomPegsSampler) (object_horizontal_radius : ℚ) (u : ℚ) : ℚ :=
  let z_range := s.z_range.getD (0, 1)
  let minimum := min z_range.1 z_range.2
  let maximum := max z_range.1 z_range.2
  let minimum' := if s.ensure_object_boundary_in_range then
    minimum + object_horizontal_radius else minimum
  let maximum' := if s.ensure_object_boundary_in_range then
    maximum - object_horizontal_radius else maximum
  uniformDraw minimum' maximum' u

end UniformRandomPegsSampler

/-- Squared Euclidean distance of two 3-vectors (squared form of
`np.linalg.norm(pos - pos2, 2)`). -/
def dist3sq (p q : Vec3) : ℚ :=
  (p.1 - q.1) ^ 2 + (p.2.1 - q.2.1) ^ 2 + (p.2.2 - q.2.2) ^ 2

/-- Squared distance of the horizontal (x, y) projections of two 3-vectors. -/
def horizDistSq (p q : Vec3) : ℚ :=
  (p.1 - q.1) ^ 2 + (p.2.1 - q.2.1) ^ 2

/-- The inner rejection test of `UniformRandomPegsSampler.sample`: a candidate
at `pos` with radius `h` is valid iff for every already-placed `(pos2, r)` it
is NOT the case that `norm(pos - pos2) ≤ r + h` and `|pos[2] - pos2[2]| < 0.021`. -/
def locationValid (placed : List (Vec3 × ℚ)) (pos : Vec3) (h : ℚ) : Prop :=
  ∀ pr ∈ placed,
    ¬ (dist3sq pos pr.1 ≤ (pr.2 + h) ^ 2 ∧ |pos.2.2 - pr.1.2.2| < 21 / 1000)

instance (placed : List (Vec3 × ℚ)) (pos : Vec3) (h : ℚ) :
    Decidable (locationValid placed pos h) :=
  List.decidableBAll _ placed

namespace UniformRandomPegsSampler

/-- One candidate of the retry loop, starting at draw index `k`:
`pos = table_top_offset - bottom_offset + [sample_x(r), sample_y(r), sample_z(0.01)]`
(three sequential draws). -/
def candidatePos (s : UniformRandomPegsSampler) (obj : MujocoObject)
    (u : ℕ → ℚ) (k : ℕ) : Vec3 :=
  (s.table_top_offset.1 - obj.bottom_offset.1 +
      s.sample_x obj.horizontal_radius (u k),
   s.table_top_offset.2.1 - obj.bottom_offset.2.1 +
      s.sample_y obj.horizontal_radius (u (k + 1)),
   s.table_top_offset.2.2 - obj.bottom_offset.2.2 +
      s.sample_z (1 / 100) (u (k + 2)))

/-- The retry loop `for i in range(5000)` for one object, parametrized by the
remaining fuel (called with `5000`). Returns the accepted position together
with the next unconsumed draw index, or `none` on exhaustion. -/
def tryPlace (s : UniformRandomPegsSampler) (obj : MujocoObject)
    (placed : List (Vec3 × ℚ)) (u : ℕ → ℚ) : ℕ → ℕ → Option (Vec3 × ℕ)
  | _, 0 => none
  | k, fuel + 1 =>
    let pos := candidatePos s obj u k
    if locationValid placed pos obj.horizontal_radius then some (pos, k + 3)
    else tryPlace s obj placed u (k + 3) fuel

/-- The orientation drawn by `sample_quat` inside `sample`, kept symbolic: the
free-z case records the unit draw `v` (the drawn angle is `2π·v`); the
fixed-identity case records no draw, matching the fact that `sample_quat`
consumes a draw only when `z_rotation` is set. -/
inductive SampledQuat where
  | zrot (v : ℚ)
  | ident
  deriving DecidableEq

/-- The main loop of `UniformRandomPegsSampler.sample` over the object list,
threading the list of already-placed `(pos, radius)` pairs and the draw index.
Exhaustion of the 5000-attempt budget for any object raises
`RandomizationError('Cannot place all objects on the desk')`. -/
def sampleLoop (s : UniformRandomPegsSampler) (u : ℕ → ℚ) :
    List MujocoObject → List (Vec3 × ℚ) → ℕ →
    Except String (List Vec3 × List SampledQuat)
  | [], _, _ => .ok ([], [])
  | obj :: rest, placed, k =>
    match tryPlace s obj placed u k 5000 with
    | none => .error "Cannot place all objects on the desk"
    | some (pos, k') =>
      let q : SampledQuat := if s.z_rotation then .zrot (u k') else .ident
      let k'' := if s.z_rotation then k' + 1 else k'
      match sampleLoop s u rest (placed ++ [(pos, obj.horizontal_radius)]) k'' with
      | .error e => .error e
      | .ok (ps, qs) => .ok (pos :: ps, q :: qs)

/-- `UniformRandomPegsSampler.sample`: place every object of `objs` (the
`mujoco_objects` list stored by `setup`, in order) starting from an empty
placed list and draw index 0. -/
def sample (s : UniformRandomPegsSampler) (objs : List MujocoObject)
    (u : ℕ → ℚ) : Except String (List Vec3 × List SampledQuat) :=
  sampleLoop s u objs [] 0

end UniformRandomPegsSampler

/-! ## Basic lemmas about the sampler -/

/-- The rejection relation between an earlier-placed object `a` and a
later-placed object `b` (each a `(position, horizontal_radius)` pair):
they do not collide in the sense of the rejection test of `sample`. -/
def noCollide (a b : Vec3 × ℚ) : Prop :=
  ¬ (dist3sq b.1 a.1 ≤ (a.2 + b.2) ^ 2 ∧ |b.1.2.2 - a.1.2.2| < 21 / 1000)

theorem locationValid_iff (placed : List (Vec3 × ℚ)) (pos : Vec3) (h : ℚ) :
    locationValid placed pos h ↔ ∀ a ∈ placed, noCollide a (pos, h) :=
  Iff.rfl

theorem dist3sq_comm (p q : Vec3) : dist3sq p q = dist3sq q p := by
  simp only [dist3sq]; ring

namespace UniformRandomPegsSampler

theorem tryPlace_zero (s : UniformRandomPegsSampler) (obj : MujocoObject)
    (placed : List (Vec3 × ℚ)) (u : ℕ → ℚ) (k : ℕ) :
    tryPlace s obj placed u k 0 = none := rfl

theorem tryPlace_succ (s : UniformRandomPegsSampler) (obj : MujocoObject)
    (placed : List (Vec3 × ℚ)) (u : ℕ → ℚ) (k f : ℕ) :
    tryPlace s obj placed u k (f + 1) =
      (if locationValid placed (candidatePos s obj u k) obj.horizontal_radius
       then some (candidatePos s obj u k, k + 3)
       else tryPlace s obj placed u (k + 3) f) := rfl

/-- The retry loop with fuel `f` starting at draw index `k` exhausts (returns
`none`) exactly when each of its `f` candidates — attempt `a` uses draw
indices `k + 3a .. k + 3a + 2` — fails the rejection test. -/
theorem tryPlace_eq_none_iff (s : UniformRandomPegsSampler) (obj : MujocoObject)
    (placed : List (Vec3 × ℚ)) (u : ℕ → ℚ) :
    ∀ (f k : ℕ), tryPlace s obj placed u k f = none ↔
      ∀ a < f, ¬ locationValid placed (candidatePos s obj u (k + 3 * a))
        obj.horizontal_radius := by
  intro f
  induction f with
  | zero => intro k; simp [tryPlace_zero]
  | succ f ih =>
    intro k
    rw [tryPlace_succ]
    by_cases hv : locationValid placed (candidatePos s obj u k) obj.horizontal_radius
    · rw [if_pos hv]
      constructor
      · intro h; exact absurd h (by simp)
      · intro h
        exact absurd hv (by simpa using h 0 (Nat.succ_pos f))
    · rw [if_neg hv, ih (k + 3)]
      constructor
      · intro h a ha
        rcases Nat.eq_zero_or_pos a with rfl | hpos
        · simpa using hv
        · obtain ⟨a', rfl⟩ := Nat.exists_eq_add_of_lt hpos
          have := h a' (by omega)
          simpa [Nat.mul_add, Nat.add_comm, Nat.add_assoc, Nat.add_left_comm] using this
      · intro h a ha
        have := h (a + 1) (by omega)
        simpa [Nat.mul_add, Nat.add_comm, Nat.add_assoc, Nat.add_left_comm] using this

/-- A successfully returned position passed the rejection test against every
already-placed object, and is the candidate of some attempt `a < f`. -/
theorem tryPlace_eq_some (s : UniformRandomPegsSampler) (obj : MujocoObject)
    (placed : List (Vec3 × ℚ)) (u : ℕ → ℚ) :
    ∀ (f k : ℕ) (pos : Vec3) (k' : ℕ),
      tryPlace s obj placed u k f = some (pos, k') →
      locationValid placed pos obj.horizontal_radius ∧
      ∃ a < f, pos = candidatePos s obj u (k + 3 * a) ∧ k' = k + 3 * a + 3 := by
  intro f
  induction f with
  | zero => intro k pos k' h; simp [tryPlace_zero] at h
  | succ f ih =>
    intro k pos k' h
    rw [tryPlace_succ] at h
    by_cases hv : locationValid placed (candidatePos s obj u k) obj.horizontal_radius
    · rw [if_pos hv] at h
      obtain ⟨rfl, rfl⟩ : pos = candidatePos s obj u k ∧ k' = k + 3 := by
        simpa [eq_comm] using h
      exact ⟨hv, 0, Nat.succ_pos f, by simp, by simp⟩
    · rw [if_neg hv] at h
      obtain ⟨hval, a, ha, hpos, hk⟩ := ih (k + 3) pos k' h
      exact ⟨hval, a + 1, by omega, by rw [hpos]; ring_nf, by omega⟩

/-- Invariant of the main loop of `sample`: starting from a pairwise
non-colliding placed list, a successful run returns one position per object
and extends the placed list to a pairwise non-colliding one, index-aligned
with the object list. -/
theorem sampleLoop_ok_invariant (s : UniformRandomPegsSampler) (u : ℕ → ℚ) :
    ∀ (objs : List MujocoObject) (placed : List (Vec3 × ℚ)) (k : ℕ)
      (ps : List Vec3) (qs : List SampledQuat),
      sampleLoop s u objs placed k = .ok (ps, qs) →
      List.Pairwise noCollide placed →
      ps.length = objs.length ∧
      List.Pairwise noCollide
        (placed ++ ps.zip (objs.map (·.horizontal_radius))) := by
  intro objs
  induction objs with
  | nil =>
    intro placed k ps qs h hpw
    obtain ⟨rfl, rfl⟩ : ps = [] ∧ qs = [] := by
      simpa [sampleLoop, eq_comm] using h
    simpa using hpw
  | cons obj rest ih =>
    intro placed k ps qs h hpw
    rw [sampleLoop] at h
    cases htry : tryPlace s obj placed u k 5000 with
    | none => rw [htry] at h; simp at h
    | some v =>
      obtain ⟨pos, k'⟩ := v
      rw [htry] at h
      dsimp only at h
      obtain ⟨hval, -⟩ := tryPlace_eq_some s obj placed u 5000 k pos k' htry
      cases hrec : sampleLoop s u rest (placed ++ [(pos, obj.horizontal_radius)])
          (if s.z_rotation then k' + 1 else k') with
      | error e => rw [hrec] at h; simp at h
      | ok v' =>
        obtain ⟨ps', qs'⟩ := v'
        rw [hrec] at h
        dsimp only at h
        rw [Except.ok.injEq, Prod.mk.injEq] at h
        obtain ⟨h1, h2⟩ := h
        subst h1
        have hpw' : List.Pairwise noCollide (placed ++ [(pos, obj.horizontal_radius)]) := by
          rw [List.pairwise_append]
          refine ⟨hpw, by simp, ?_⟩
          intro a ha b hb
          obtain rfl : b = (pos, obj.horizontal_radius) := by simpa using hb
          exact (locationValid_iff placed pos obj.horizontal_radius).mp hval a ha
        obtain ⟨hlen, hall⟩ := ih _ _ _ _ hrec hpw'
        constructor
        · simpa using hlen
        · simpa [List.append_assoc] using hall

end UniformRandomPegsSampler

/-! ## Claim C1 -/

open UniformRandomPegsSampler in
/-- C1 (amended): for every successful `sample()` call, every pair of placed
objects with vertical gap `< 0.021` has **3-D Euclidean** center distance
strictly greater than the sum of their horizontal radii (stated in squared
form; both sides of the source comparison are nonnegative). The source
compares `np.linalg.norm(pos - pos2, 2)` — the full 3-D norm — not the
horizontal projection claimed by the spec. -/
theorem sample_near_coplanar_pairs_separated_in_3d
    (s : UniformRandomPegsSampler) (objs : List MujocoObject) (u : ℕ → ℚ)
    (ps : List Vec3) (qs : List SampledQuat) (i j : ℕ)
    (hok : sample s objs u = .ok (ps, qs)) (hij : i < j) (hj : j < ps.length)
    (hgap : |(ps.getD i (0, 0, 0)).2.2 - (ps.getD j (0, 0, 0)).2.2| < 21 / 1000) :
    dist3sq (ps.getD i (0, 0, 0)) (ps.getD j (0, 0, 0)) >
      ((objs.getD i ⟨0, (0, 0, 0)⟩).horizontal_radius +
       (objs.getD j ⟨0, (0, 0, 0)⟩).horizontal_radius) ^ 2 := by
  obtain ⟨hlen, hpw⟩ :=
    sampleLoop_ok_invariant s u objs [] 0 ps qs hok List.Pairwise.nil
  rw [List.nil_append] at hpw
  have hi : i < ps.length := lt_trans hij hj
  have hio : i < objs.length := hlen ▸ hi
  have hjo : j < objs.length := hlen ▸ hj
  have hzi : i < (ps.zip (objs.map (·.horizontal_radius))).length := by
    simp [List.length_zip, hlen]; omega
  have hzj : j < (ps.zip (objs.map (·.horizontal_radius))).length := by
    simp [List.length_zip, hlen]; omega
  have hnc := List.pairwise_iff_getElem.mp hpw i j hzi hzj hij
  rw [List.getElem_zip, List.getElem_zip] at hnc
  simp only [noCollide, List.getElem_map] at hnc
  push_neg at hnc
  rw [List.getD_eq_getElem ps (0, 0, 0) hi, List.getD_eq_getElem ps (0, 0, 0) hj,
    List.getD_eq_getElem objs _ hio, List.getD_eq_getElem objs _ hjo] at *
  have hb : |ps[j].2.2 - ps[i].2.2| < 21 / 1000 := by
    rwa [abs_sub_comm] at hgap
  have := not_le.mp fun hle => absurd (hnc hle) (not_le.mpr hb)
  rwa [dist3sq_comm] at this

/-- A sampler configuration that pins both `x` and `y` to `0` and lets `z`
range over `[0, 1]`, with rotation off. -/
def stackedSampler : UniformRandomPegsSampler :=
  { x_range := some (0, 0), y_range := some (0, 0), z_range := some (0, 1),
    ensure_object_boundary_in_range := false, z_rotation := false,
    table_size := (0, 0, 0), table_top_offset := (0, 0, 0) }

/-- An object of horizontal radius `1/200` resting at its own origin. -/
def smallPeg : MujocoObject := { horizontal_radius := 1 / 200, bottom_offset := (0, 0, 0) }

/-- A draw stream whose sixth unit draw (the second object's `z`) is `1/50`
and every other draw is `0`. -/
def stackedDraws : ℕ → ℚ := fun n => if n = 5 then 1 / 50 else 0

open UniformRandomPegsSampler in
theorem sample_stacked_run :
    sample stackedSampler [smallPeg, smallPeg] stackedDraws =
      .ok ([(0, 0, 0), (0, 0, 1 / 50)], [.ident, .ident]) := by
  have hc0 : candidatePos stackedSampler smallPeg stackedDraws 0 =
      ((0 : ℚ), (0 : ℚ), (0 : ℚ)) := by
    simp [candidatePos, stackedSampler, smallPeg, stackedDraws, sample_x, sample_y,
      sample_z, uniformDraw]
  have hc1 : candidatePos stackedSampler smallPeg stackedDraws 3 =
      ((0 : ℚ), (0 : ℚ), (1 / 50 : ℚ)) := by
    simp [candidatePos, stackedSampler, smallPeg, stackedDraws, sample_x, sample_y,
      sample_z, uniformDraw]
  have h1 : tryPlace stackedSampler smallPeg [] stackedDraws 0 5000 =
      some (((0 : ℚ), (0 : ℚ), (0 : ℚ)), 3) := by
    rw [show (5000 : ℕ) = 4999 + 1 from rfl, tryPlace_succ, hc0, if_pos]
    intro pr hpr
    simp at hpr
  have h2 : tryPlace stackedSampler smallPeg
      [(((0 : ℚ), (0 : ℚ), (0 : ℚ)), (1 / 200 : ℚ))] stackedDraws 3 5000 =
      some (((0 : ℚ), (0 : ℚ), (1 / 50 : ℚ)), 6) := by
    rw [show (5000 : ℕ) = 4999 + 1 from rfl, tryPlace_succ, hc1, if_pos]
    intro pr hpr
    simp only [List.mem_singleton] at hpr
    subst hpr
    simp only [dist3sq, smallPeg]
    norm_num
  have hz : stackedSampler.z_rotation = false := rfl
  have hr : smallPeg.horizontal_radius = 1 / 200 := rfl
  simp only [sample, sampleLoop, hr, h1, hz, if_neg, Bool.false_eq_true, not_false_iff,
    List.nil_append, h2]

/-- A concrete run refuting C1 as stated: both objects are placed at
`x = y = 0` with radii `1/200` each, at heights `0` and `1/50`; the vertical
gap `1/50 < 0.021`, yet the horizontal center distance is `0`, strictly less
than the radius sum `1/100` (so NOT `≥` the radius sum). The candidate was
accepted because the source compares the 3-D distance `1/50 > 1/100`, not the
horizontal one. -/
theorem sample_horizontal_overlap_counterexample :
    UniformRandomPegsSampler.sample stackedSampler [smallPeg, smallPeg] stackedDraws =
      .ok ([(0, 0, 0), (0, 0, 1 / 50)], [.ident, .ident]) ∧
    |((0 : ℚ), (0 : ℚ), (0 : ℚ)).2.2 - ((0 : ℚ), (0 : ℚ), (1 / 50 : ℚ)).2.2| < 21 / 1000 ∧
    horizDistSq ((0 : ℚ), (0 : ℚ), (0 : ℚ)) ((0 : ℚ), (0 : ℚ), (1 / 50 : ℚ)) = 0 ∧
    ¬ (horizDistSq ((0 : ℚ), (0 : ℚ), (0 : ℚ)) ((0 : ℚ), (0 : ℚ), (1 / 50 : ℚ)) ≥
        (smallPeg.horizontal_radius + smallPeg.horizontal_radius) ^ 2) ∧
    (0 : ℚ) < smallPeg.horizontal_radius + smallPeg.horizontal_radius :=
  ⟨sample_stacked_run, by norm_num [abs_lt], by norm_num [horizDistSq],
    by norm_num [horizDistSq, smallPeg], by norm_num [smallPeg]⟩

open UniformRandomPegsSampler in
/-- Witness for `sample_near_coplanar_pairs_separated_in_3d` at a concrete
successful run with a near-coplanar pair. -/
theorem sample_near_coplanar_pairs_separated_in_3d_witness :
    dist3sq (([((0 : ℚ), (0 : ℚ), (0 : ℚ)), ((0 : ℚ), (0 : ℚ), (1 / 50 : ℚ))] :
        List Vec3).getD 0 (0, 0, 0))
      (([((0 : ℚ), (0 : ℚ), (0 : ℚ)), ((0 : ℚ), (0 : ℚ), (1 / 50 : ℚ))] :
        List Vec3).getD 1 (0, 0, 0)) >
      ((([smallPeg, smallPeg] : List MujocoObject).getD 0
          ⟨0, (0, 0, 0)⟩).horizontal_radius +
       (([smallPeg, smallPeg] : List MujocoObject).getD 1
          ⟨0, (0, 0, 0)⟩).horizontal_radius) ^ 2 :=
  sample_near_coplanar_pairs_separated_in_3d stackedSampler [smallPeg, smallPeg]
    stackedDraws [(0, 0, 0), (0, 0, 1 / 50)] [.ident, .ident] 0 1
    sample_stacked_run (by norm_num) (by norm_num) (by norm_num [abs_lt])

/-! ## Claim C2 -/

open UniformRandomPegsSampler in
/-- C2: per object the retry loop draws at most 5000 candidates — it exhausts
(returns `none`) precisely when all 5000 candidates fail the rejection test —
and exhaustion for any object makes the whole `sample()` call return the
`RandomizationError` (`'Cannot place all objects on the desk'`), which also
propagates unchanged from later objects: there is no internal retry or
degradation. -/
theorem retry_bound_5000_and_error_propagation
    (s : UniformRandomPegsSampler) (obj : MujocoObject)
    (placed : List (Vec3 × ℚ)) (u : ℕ → ℚ) (k : ℕ) (objs : List MujocoObject) :
    (tryPlace s obj placed u k 5000 = none ↔
      ∀ a < 5000, ¬ locationValid placed (candidatePos s obj u (k + 3 * a))
        obj.horizontal_radius) ∧
    (tryPlace s obj placed u k 5000 = none →
      sampleLoop s u (obj :: objs) placed k =
        .error "Cannot place all objects on the desk") ∧
    (∀ (pos : Vec3) (k' : ℕ) (e : String),
      tryPlace s obj placed u k 5000 = some (pos, k') →
      sampleLoop s u objs (placed ++ [(pos, obj.horizontal_radius)])
        (if s.z_rotation then k' + 1 else k') = .error e →
      sampleLoop s u (obj :: objs) placed k = .error e) := by
  refine ⟨tryPlace_eq_none_iff s obj placed u 5000 k, ?_, ?_⟩
  · intro hnone
    rw [sampleLoop, hnone]
  · intro pos k' e hsome herr
    rw [sampleLoop, hsome]
    dsimp only
    rw [herr]

/-- A sampler configuration pinning `x`, `y` and `z` all to `0`. -/
def pinnedSampler : UniformRandomPegsSampler :=
  { x_range := some (0, 0), y_range := some (0, 0), z_range := some (0, 0),
    ensure_object_boundary_in_range := false, z_rotation := false,
    table_size := (0, 0, 0), table_top_offset := (0, 0, 0) }

/-- An object of horizontal radius `1` resting at its own origin. -/
def bigPeg : MujocoObject := { horizontal_radius := 1, bottom_offset := (0, 0, 0) }

open UniformRandomPegsSampler in
/-- Witness for `retry_bound_5000_and_error_propagation`: with every candidate
pinned to the position of an already-placed radius-1 object, the retry budget
exhausts and `sample`'s loop returns the `RandomizationError`. -/
theorem retry_bound_5000_and_error_propagation_witness :
    tryPlace pinnedSampler bigPeg [((0, 0, 0), 1)] (fun _ => 0) 0 5000 = none ∧
    sampleLoop pinnedSampler (fun _ => 0) [bigPeg] [((0, 0, 0), 1)] 0 =
      .error "Cannot place all objects on the desk" := by
  have h := retry_bound_5000_and_error_propagation pinnedSampler bigPeg
    [((0, 0, 0), 1)] (fun _ => 0) 0 []
  have hnone : tryPlace pinnedSampler bigPeg [((0, 0, 0), 1)] (fun _ => 0) 0 5000 = none := by
    refine h.1.mpr ?_
    intro a _ hv
    have hmem := hv (((0 : ℚ), (0 : ℚ), (0 : ℚ)), (1 : ℚ)) (by simp)
    apply hmem
    constructor <;>
      norm_num [dist3sq, candidatePos, sample_x, sample_y, sample_z, uniformDraw,
        pinnedSampler, bigPeg]
  exact ⟨hnone, h.2.1 hnone⟩

/-! ## Claim C10 -/

open UniformRandomPegsSampler in
/-- For a one-element object list the first candidate is always accepted (the
placed list is empty), so `sample` returns it and consumes draws 0..2 (plus
draw 3 for the rotation when `z_rotation` is set). -/
theorem sample_single (s : UniformRandomPegsSampler) (obj : MujocoObject) (u : ℕ → ℚ) :
    sample s [obj] u =
      .ok ([candidatePos s obj u 0],
        [if s.z_rotation then SampledQuat.zrot (u 3) else .ident]) := by
  rw [sample, sampleLoop, show (5000 : ℕ) = 4999 + 1 from rfl, tryPlace_succ,
    if_pos (by intro pr hpr; simp at hpr)]
  dsimp only
  rw [sampleLoop]

open UniformRandomPegsSampler in
/-- C10: with a single object descriptor, `sample()` always succeeds on the
first attempt — the rejection test compares only against previously placed
objects of the same call, and that list is empty — so for every configuration
and draw stream the result is the first candidate (draws 0, 1, 2) and no
`RandomizationError` is ever raised. -/
theorem single_object_sample_always_succeeds
    (s : UniformRandomPegsSampler) (obj : MujocoObject) (u : ℕ → ℚ) :
    sample s [obj] u =
      .ok ([candidatePos s obj u 0],
        [if s.z_rotation then SampledQuat.zrot (u 3) else .ident]) ∧
    ∀ e, sample s [obj] u ≠ .error e :=
  ⟨sample_single s obj u, fun e => by rw [sample_single s obj u]; simp⟩

/-! ## Claim C3 -/

theorem uniformDraw_mem_of_le (lo hi u : ℚ) (hlh : lo ≤ hi) (h0 : 0 ≤ u) (h1 : u ≤ 1) :
    lo ≤ uniformDraw lo hi u ∧ uniformDraw lo hi u ≤ hi := by
  unfold uniformDraw
  constructor <;> nlinarith

theorem uniformDraw_mem_of_ge (lo hi u : ℚ) (hlh : hi ≤ lo) (h0 : 0 ≤ u) (h1 : u ≤ 1) :
    hi ≤ uniformDraw lo hi u ∧ uniformDraw lo hi u ≤ lo := by
  unfold uniformDraw
  constructor <;> nlinarith

namespace UniformRandomPegsSampler

/-- The normalized (`min`, `max`) pair of the active x range, before the
boundary shrink — the values `minimum`/`maximum` computed by `sample_x`. -/
def xBounds (s : UniformRandomPegsSampler) : ℚ × ℚ :=
  let x_range := s.x_range.getD (-(s.table_size.1) / 2, s.table_size.1 / 2)
  (min x_range.1 x_range.2, max x_range.1 x_range.2)

/-- The normalized (`min`, `max`) pair of the active y range, before the
boundary shrink — the values `minimum`/`maximum` computed by `sample_y`. -/
def yBounds (s : UniformRandomPegsSampler) : ℚ × ℚ :=
  let y_range := s.y_range.getD (-(s.table_size.1) / 2, s.table_size.1 / 2)
  (min y_range.1 y_range.2, max y_range.1 y_range.2)

theorem sample_x_eq (s : UniformRandomPegsSampler) (r u : ℚ) :
    s.sample_x r u =
      uniformDraw
        (if s.ensure_object_boundary_in_range then s.xBounds.1 + r else s.xBounds.1)
        (if s.ensure_object_boundary_in_range then s.xBounds.2 - r else s.xBounds.2) u := by
  unfold sample_x xBounds
  cases s.ensure_object_boundary_in_range <;> simp

theorem sample_y_eq (s : UniformRandomPegsSampler) (r u : ℚ) :
    s.sample_y r u =
      uniformDraw
        (if s.ensure_object_boundary_in_range then s.yBounds.1 + r else s.yBounds.1)
        (if s.ensure_object_boundary_in_range then s.yBounds.2 - r else s.yBounds.2) u := by
  unfold sample_y yBounds
  cases s.ensure_object_boundary_in_range <;> simp

/-- C3 (amended): with `ensure_object_boundary_in_range` on, the sampled x
center lies in `[x_min + r, x_max - r]` and the sampled y center in
`[y_min + r, y_max - r]` **provided the shrunken interval is nonempty**
(when `2r` exceeds the range width the draw lands in the reflected interval
`[max - r, min + r]` instead, since numpy's `uniform` silently accepts
`low > high`); with the flag off, the center lies in the unshrunk normalized
range. -/
theorem sample_xy_within_shrunk_range (s : UniformRandomPegsSampler) (r u : ℚ)
    (h0 : 0 ≤ u) (h1 : u ≤ 1) :
    (s.ensure_object_boundary_in_range = true →
      (s.xBounds.1 + r ≤ s.xBounds.2 - r →
        s.xBounds.1 + r ≤ s.sample_x r u ∧ s.sample_x r u ≤ s.xBounds.2 - r) ∧
      (s.yBounds.1 + r ≤ s.yBounds.2 - r →
        s.yBounds.1 + r ≤ s.sample_y r u ∧ s.sample_y r u ≤ s.yBounds.2 - r) ∧
      (s.xBounds.2 - r ≤ s.xBounds.1 + r →
        s.xBounds.2 - r ≤ s.sample_x r u ∧ s.sample_x r u ≤ s.xBounds.1 + r)) ∧
    (s.ensure_object_boundary_in_range = false →
      (s.xBounds.1 ≤ s.sample_x r u ∧ s.sample_x r u ≤ s.xBounds.2) ∧
      (s.yBounds.1 ≤ s.sample_y r u ∧ s.sample_y r u ≤ s.yBounds.2)) := by
  constructor
  · intro he
    rw [sample_x_eq, sample_y_eq, he]
    simp only [if_true]
    exact ⟨fun h => uniformDraw_mem_of_le _ _ u h h0 h1,
      fun h => uniformDraw_mem_of_le _ _ u h h0 h1,
      fun h => uniformDraw_mem_of_ge _ _ u h h0 h1⟩
  · intro he
    rw [sample_x_eq, sample_y_eq, he]
    simp only [Bool.false_eq_true, if_false]
    have hx : s.xBounds.1 ≤ s.xBounds.2 := min_le_max
    have hy : s.yBounds.1 ≤ s.yBounds.2 := min_le_max
    exact ⟨uniformDraw_mem_of_le _ _ u hx h0 h1, uniformDraw_mem_of_le _ _ u hy h0 h1⟩

end UniformRandomPegsSampler

/-- A sampler whose x range `[-0.01, 0.01]` is smaller than twice the radius
`0.05` of `fatPeg`, with the boundary flag on. -/
def infeasibleSampler : UniformRandomPegsSampler :=
  { x_range := some (-(1 / 100), 1 / 100), y_range := some (0, 0), z_range := some (0, 0),
    ensure_object_boundary_in_range := true, z_rotation := false,
    table_size := (0, 0, 0), table_top_offset := (0, 0, 0) }

/-- An object of horizontal radius `0.05` resting at its own origin. -/
def fatPeg : MujocoObject := { horizontal_radius := 1 / 20, bottom_offset := (0, 0, 0) }

open UniformRandomPegsSampler in
/-- Refutes C3 as stated: for the region `[-0.01, 0.01]` and radius `0.05`
(shrunken interval `[0.04, -0.04]`, which is empty), the draw `u = 0` yields
`sample_x = 0.04`, which does NOT lie in `[x_min + r, x_max - r]`. -/
theorem sample_x_outside_shrunk_range_counterexample :
    infeasibleSampler.sample_x (1 / 20) 0 = 1 / 25 ∧
    infeasibleSampler.xBounds = (-(1 / 100), 1 / 100) ∧
    ¬ (infeasibleSampler.xBounds.1 + 1 / 20 ≤ infeasibleSampler.sample_x (1 / 20) 0 ∧
       infeasibleSampler.sample_x (1 / 20) 0 ≤ infeasibleSampler.xBounds.2 - 1 / 20) := by
  refine ⟨?_, ?_, ?_⟩ <;>
    norm_num [sample_x, xBounds, uniformDraw, infeasibleSampler]

open UniformRandomPegsSampler in
/-- Witness for `sample_xy_within_shrunk_range` at a concrete feasible
configuration. -/
theorem sample_xy_within_shrunk_range_witness :
    ({ x_range := some (0, 1), y_range := some (0, 2), z_range := some (0, 1),
       ensure_object_boundary_in_range := true, z_rotation := false,
       table_size := (0, 0, 0), table_top_offset := (0, 0, 0) } :
        UniformRandomPegsSampler).xBounds.1 + 1 / 10 ≤
      ({ x_range := some (0, 1), y_range := some (0, 2), z_range := some (0, 1),
         ensure_object_boundary_in_range := true, z_rotation := false,
         table_size := (0, 0, 0), table_top_offset := (0, 0, 0) } :
          UniformRandomPegsSampler).sample_x (1 / 10) (1 / 2) ∧
    ({ x_range := some (0, 1), y_range := some (0, 2), z_range := some (0, 1),
       ensure_object_boundary_in_range := true, z_rotation := false,
       table_size := (0, 0, 0), table_top_offset := (0, 0, 0) } :
        UniformRandomPegsSampler).sample_x (1 / 10) (1 / 2) ≤
      ({ x_range := some (0, 1), y_range := some (0, 2), z_range := some (0, 1),
         ensure_object_boundary_in_range := true, z_rotation := false,
         table_size := (0, 0, 0), table_top_offset := (0, 0, 0) } :
          UniformRandomPegsSampler).xBounds.2 - 1 / 10 := by
  have h := sample_xy_within_shrunk_range
    { x_range := some (0, 1), y_range := some (0, 2), z_range := some (0, 1),
      ensure_object_boundary_in_range := true, z_rotation := false,
      table_size := (0, 0, 0), table_top_offset := (0, 0, 0) }
    (1 / 10) (1 / 2) (by norm_num) (by norm_num)
  exact (h.1 rfl).1 (by norm_num [UniformRandomPegsSampler.xBounds])

/-! ## Claim C4 -/

open UniformRandomPegsSampler in
/-- C4 (amended): for a region smaller than twice the object radius with the
boundary flag on, `sample()` does NOT raise: no boundary-infeasibility check
exists, the rejection test concerns only inter-object overlap, so the single
object is placed on the first attempt, with its x drawn from the *reflected*
interval `[x_max - r, x_min + r]` (numpy's `uniform` silently accepts
`low > high`). -/
theorem infeasible_region_sample_succeeds (u : ℕ → ℚ)
    (hu : ∀ n, 0 ≤ u n ∧ u n ≤ 1) :
    sample infeasibleSampler [fatPeg] u =
      .ok ([candidatePos infeasibleSampler fatPeg u 0], [.ident]) ∧
    (∀ e, sample infeasibleSampler [fatPeg] u ≠ .error e) ∧
    (infeasibleSampler.xBounds.2 - fatPeg.horizontal_radius ≤
        (candidatePos infeasibleSampler fatPeg u 0).1 ∧
      (candidatePos infeasibleSampler fatPeg u 0).1 ≤
        infeasibleSampler.xBounds.1 + fatPeg.horizontal_radius) := by
  have hok := sample_single infeasibleSampler fatPeg u
  rw [show (if infeasibleSampler.z_rotation then
      SampledQuat.zrot (u 3) else SampledQuat.ident) = SampledQuat.ident from rfl] at hok
  refine ⟨hok, fun e => by rw [hok]; simp, ?_⟩
  obtain ⟨h0, h1⟩ := hu 0
  have hx : (candidatePos infeasibleSampler fatPeg u 0).1 =
      uniformDraw (1 / 25) (-(1 / 25)) (u 0) := by
    simp [candidatePos, sample_x, uniformDraw, infeasibleSampler, fatPeg]
    ring
  have hxb : infeasibleSampler.xBounds = (-(1 / 100), 1 / 100) := by
    norm_num [xBounds, infeasibleSampler]
  rw [hx, hxb, show fatPeg.horizontal_radius = 1 / 20 from rfl]
  constructor <;> simp [uniformDraw] <;> nlinarith

open UniformRandomPegsSampler in
/-- Refutes C4 as stated: with region `x ∈ [-0.01, 0.01]`, object radius
`0.05` and the boundary flag on, `sample()` does not raise the
placement-infeasible error — the all-zeros draw stream succeeds immediately,
returning the out-of-region center `x = 0.04`. -/
theorem infeasible_region_no_error_counterexample :
    sample infeasibleSampler [fatPeg] (fun _ => 0) =
      .ok ([(1 / 25, 1 / 20, 1 / 100)], [.ident]) ∧
    sample infeasibleSampler [fatPeg] (fun _ => 0) ≠
      .error "Cannot place all objects on the desk" := by
  have hok := sample_single infeasibleSampler fatPeg (fun _ => 0)
  have hc : candidatePos infeasibleSampler fatPeg (fun _ => 0) 0 =
      ((1 / 25 : ℚ), (1 / 20 : ℚ), (1 / 100 : ℚ)) := by
    norm_num [candidatePos, sample_x, sample_y, sample_z, uniformDraw,
      infeasibleSampler, fatPeg]
  rw [hc] at hok
  rw [show (if infeasibleSampler.z_rotation then
      SampledQuat.zrot ((fun (_ : ℕ) => (0 : ℚ)) 3) else SampledQuat.ident) =
      SampledQuat.ident from rfl] at hok
  exact ⟨hok, by rw [hok]; simp⟩

open UniformRandomPegsSampler in
/-- Witness for `infeasible_region_sample_succeeds` at the all-zeros draw
stream. -/
theorem infeasible_region_sample_succeeds_witness :
    sample infeasibleSampler [fatPeg] (fun _ => 0) =
      .ok ([candidatePos infeasibleSampler fatPeg (fun _ => 0) 0], [.ident]) ∧
    (∀ e, sample infeasibleSampler [fatPeg] (fun _ => 0) ≠ .error e) ∧
    (infeasibleSampler.xBounds.2 - fatPeg.horizontal_radius ≤
        (candidatePos infeasibleSampler fatPeg (fun _ => 0) 0).1 ∧
      (candidatePos infeasibleSampler fatPeg (fun _ => 0) 0).1 ≤
        infeasibleSampler.xBounds.1 + fatPeg.horizontal_radius) :=
  infeasible_region_sample_succeeds (fun _ => 0) (fun _ => by norm_num)

/-! ## Claim C5 -/

/-- Modelled from the spec (refinement reference for C5, following the
claim's words, NOT the source): were the unset y range to default to the
arena surface's own y extent, `sample_y` would read
`[-table_size[1]/2, table_size[1]/2]`. -/
def sample_y_claimDefault (s : UniformRandomPegsSampler) (object_horizontal_radius u : ℚ) : ℚ :=
  let y_range := (-(s.table_size.2.1) / 2, s.table_size.2.1 / 2)
  let minimum := min y_range.1 y_range.2
  let maximum := max y_range.1 y_range.2
  let minimum' := if s.ensure_object_boundary_in_range then
    minimum + object_horizontal_radius else minimum
  let maximum' := if s.ensure_object_boundary_in_range then
    maximum - object_horizontal_radius else maximum
  uniformDraw minimum' maximum' u

/-- A sampler with every range unset over a non-square surface of x extent 2
and y extent 4. -/
def rectangularSampler : UniformRandomPegsSampler :=
  { x_range := none, y_range := none, z_range := none,
    ensure_object_boundary_in_range := false, z_rotation := false,
    table_size := (2, 4, 1), table_top_offset := (0, 0, 0) }

open UniformRandomPegsSampler in
/-- Refutes C5 as stated: over a surface of x extent 2 and y extent 4, the
unset y range defaults to `[-1, 1]` (derived from `table_size[0]`, the x
extent), not to the y extent's `[-2, 2]` demanded by the claim: the low-end
draw `u = 0` yields `-1`, not `-2`. -/
theorem sample_y_default_counterexample :
    rectangularSampler.sample_y 0 0 = -1 ∧
    sample_y_claimDefault rectangularSampler 0 0 = -2 ∧
    rectangularSampler.sample_y 0 0 ≠ sample_y_claimDefault rectangularSampler 0 0 := by
  refine ⟨?_, ?_, ?_⟩ <;>
    norm_num [sample_y, sample_y_claimDefault, uniformDraw, rectangularSampler]

open UniformRandomPegsSampler in
/-- C5 (amended): an unset x range defaults to `[-table_size[0]/2,
table_size[0]/2]`; an unset y range defaults to the **same** interval built
from `table_size[0]` — the x extent, not the y extent — so with both unset,
`sample_y` coincides with `sample_x`; an unset z range defaults to the fixed
interval `[0, 1]`, independent of the surface. -/
theorem axis_default_ranges (s : UniformRandomPegsSampler) (r u : ℚ)
    (hx : s.x_range = none) (hy : s.y_range = none) (hz : s.z_range = none) :
    s.xBounds = (min (-(s.table_size.1) / 2) (s.table_size.1 / 2),
      max (-(s.table_size.1) / 2) (s.table_size.1 / 2)) ∧
    s.yBounds = s.xBounds ∧
    s.sample_y r u = s.sample_x r u ∧
    s.sample_z r u =
      uniformDraw (if s.ensure_object_boundary_in_range then 0 + r else 0)
        (if s.ensure_object_boundary_in_range then 1 - r else 1) u := by
  refine ⟨?_, ?_, ?_, ?_⟩
  · simp only [xBounds, hx, Option.getD_none]
  · simp only [yBounds, xBounds, hx, hy, Option.getD_none]
  · simp only [sample_y, sample_x, hx, hy, Option.getD_none]
  · simp only [sample_z, hz, Option.getD_none]
    cases s.ensure_object_boundary_in_range <;> simp

open UniformRandomPegsSampler in
/-- Witness for `axis_default_ranges` on `rectangularSampler`. -/
theorem axis_default_ranges_witness :
    rectangularSampler.xBounds =
      (min (-(rectangularSampler.table_size.1) / 2) (rectangularSampler.table_size.1 / 2),
       max (-(rectangularSampler.table_size.1) / 2) (rectangularSampler.table_size.1 / 2)) ∧
    rectangularSampler.yBounds = rectangularSampler.xBounds ∧
    rectangularSampler.sample_y (1 / 10) (1 / 2) = rectangularSampler.sample_x (1 / 10) (1 / 2) ∧
    rectangularSampler.sample_z (1 / 10) (1 / 2) =
      uniformDraw
        (if rectangularSampler.ensure_object_boundary_in_range then 0 + 1 / 10 else 0)
        (if rectangularSampler.ensure_object_boundary_in_range then 1 - 1 / 10 else 1)
        (1 / 2) :=
  axis_default_ranges rectangularSampler (1 / 10) (1 / 2) rfl rfl rfl

/-! ## Claim C6 -/

/-- `UniformRandomPegsSampler.sample_quat` as a function of the drawn rotation
angle (`np.random.uniform(low=0, high=2π)`): with `z_rotation` set it returns
`[cos(θ/2), 0, 0, sin(θ/2)]`, otherwise the identity `[1, 0, 0, 0]`. -/
noncomputable def sample_quat (z_rotation : Bool) (rot_angle : ℝ) : ℝ × ℝ × ℝ × ℝ :=
  if z_rotation then (Real.cos (rot_angle / 2), 0, 0, Real.sin (rot_angle / 2))
  else (1, 0, 0, 0)

/-- Squared norm of a `(w, x, y, z)` quaternion. -/
def quatNormSq (q : ℝ × ℝ × ℝ × ℝ) : ℝ :=
  q.1 ^ 2 + q.2.1 ^ 2 + q.2.2.1 ^ 2 + q.2.2.2 ^ 2

/-- The drawn rotation angle `np.random.uniform(high=2*np.pi, low=0)` as a
function of the unit draw. -/
noncomputable def rotAngleDraw (u : ℝ) : ℝ := 0 + u * (2 * Real.pi - 0)

/-- C6: the angle drawn for the free-z policy lies in `[0, 2π)`; the returned
quaternion is `(cos(θ/2), 0, 0, sin(θ/2))` about the vertical axis only for
the free-z policy and the identity `(1, 0, 0, 0)` for the fixed policy; both
have unit norm. -/
theorem sample_quat_form_and_unit_norm (u θ : ℝ) (h0 : 0 ≤ u) (h1 : u < 1) :
    (0 ≤ rotAngleDraw u ∧ rotAngleDraw u < 2 * Real.pi) ∧
    sample_quat true (rotAngleDraw u) =
      (Real.cos (rotAngleDraw u / 2), 0, 0, Real.sin (rotAngleDraw u / 2)) ∧
    sample_quat false θ = (1, 0, 0, 0) ∧
    quatNormSq (sample_quat true (rotAngleDraw u)) = 1 ∧
    quatNormSq (sample_quat false θ) = 1 := by
  have hpi := Real.pi_pos
  refine ⟨⟨?_, ?_⟩, rfl, rfl, ?_, ?_⟩
  · simp only [rotAngleDraw, sub_zero, zero_add]
    exact mul_nonneg h0 (by positivity)
  · simp only [rotAngleDraw, sub_zero, zero_add]
    exact mul_lt_of_lt_one_left (by positivity) h1
  · simp only [quatNormSq, sample_quat, if_true]
    norm_num
  · norm_num [quatNormSq, sample_quat]

/-- Witness for `sample_quat_form_and_unit_norm` at `u = 0`, `θ = 0`. -/
theorem sample_quat_form_and_unit_norm_witness :
    (0 ≤ rotAngleDraw 0 ∧ rotAngleDraw 0 < 2 * Real.pi) ∧
    sample_quat true (rotAngleDraw 0) =
      (Real.cos (rotAngleDraw 0 / 2), 0, 0, Real.sin (rotAngleDraw 0 / 2)) ∧
    sample_quat false 0 = (1, 0, 0, 0) ∧
    quatNormSq (sample_quat true (rotAngleDraw 0)) = 1 ∧
    quatNormSq (sample_quat false 0) = 1 :=
  sample_quat_form_and_unit_norm 0 0 le_rfl (by norm_num)

/-! ## Claims C7 and C8: the deterministic round-robin / grid sampler
(`SawyerAssembly._get_placement_initializer_for_eval_mode`) -/

/-- Modelled from the spec: `range_to_uniform_grid(a, b, n)`
(`robosuite.utils.mjcf_utils`, not under `src/`) builds an evenly spaced grid
of `n` points over `[a, b]`. Only its point count matters to the claims. -/
def range_to_uniform_grid (a b : ℚ) (n : ℕ) : List ℚ :=
  List.map (fun i : ℕ => a + (b - a) * (i : ℚ) / ((n : ℚ) - 1)) (List.range n)

theorem length_range_to_uniform_grid (a b : ℚ) (n : ℕ) :
    (range_to_uniform_grid a b n).length = n := by
  rw [range_to_uniform_grid, List.length_map, List.length_range]

/-- `np.meshgrid(x_grid, y_grid, z_rotation)` (default `'xy'` indexing, output
shape `(ny, nx, nz)`) followed by `.ravel()` of each of the three component
arrays, zipped into the list of `(x, y, z_rotation)` triples in raveled
(C-order) index order. -/
def meshgridRavel3 (xs ys zs : List ℚ) : List (ℚ × ℚ × ℚ) :=
  ys.flatMap (fun yv => xs.flatMap (fun xv => zs.map (fun zv => (xv, yv, zv))))

theorem length_meshgridRavel3 (xs ys zs : List ℚ) :
    (meshgridRavel3 xs ys zs).length = xs.length * ys.length * zs.length := by
  have hinner : ∀ (yv : ℚ),
      (xs.flatMap (fun xv => zs.map (fun zv => (xv, yv, zv)))).length =
        xs.length * zs.length := by
    intro yv
    induction xs with
    | nil => simp
    | cons x xs ih => simp [List.flatMap_cons, ih, Nat.succ_mul, Nat.add_comm]
  unfold meshgridRavel3
  induction ys with
  | nil => simp
  | cons y ys ih =>
    simp only [List.flatMap_cons, List.length_append, ih, hinner, List.length_cons]
    ring

/-- `round_robin_period`: equals the grid length, multiplied by 100 when
`perturb_evals` is set (100 rounds of perturbations). -/
def roundRobinPeriod (grid_length : ℕ) (perturb_evals : Bool) : ℕ :=
  if perturb_evals then grid_length * 100 else grid_length

/-- The grid point the schedule-assignment loop reads for call index `t`:
`g_ind = t % grid_length`. -/
def assignedGridPoint (base : List (ℚ × ℚ × ℚ)) (t : ℕ) : ℚ × ℚ × ℚ :=
  base.getD (t % base.length) (0, 0, 0)

/-- The loop `for t in range(round_robin_period)` that fills
`final_x_grid/final_y_grid/final_z_grid`: entry `t` is the base grid point at
index `t % grid_length`, plus bounded uniform perturbation noise when
`perturb_evals` is set. -/
def buildSchedule (base : List (ℚ × ℚ × ℚ)) (period : ℕ) (perturb_evals : Bool)
    (noise : ℕ → ℚ × ℚ × ℚ) : List (ℚ × ℚ × ℚ) :=
  (List.range period).map fun t =>
    let p := assignedGridPoint base t
    if perturb_evals then
      (p.1 + (noise t).1, p.2.1 + (noise t).2.1, p.2.2 + (noise t).2.2)
    else p

/-- C7: the base cycle length equals the product of the per-axis grid point
counts; schedule index `t` is assigned the base grid point at index
`t mod L`; hence without perturbation, indices `i` and `i + L` map to the
same `(x, y, z-rotation)` triple. -/
theorem grid_cycle_product_and_round_robin (xs ys zs : List ℚ)
    (noise : ℕ → ℚ × ℚ × ℚ) (i t : ℕ)
    (ht : t < roundRobinPeriod (meshgridRavel3 xs ys zs).length false) :
    (meshgridRavel3 xs ys zs).length = xs.length * ys.length * zs.length ∧
    (buildSchedule (meshgridRavel3 xs ys zs)
        (roundRobinPeriod (meshgridRavel3 xs ys zs).length false) false
        noise).getD t (0, 0, 0) =
      assignedGridPoint (meshgridRavel3 xs ys zs) t ∧
    assignedGridPoint (meshgridRavel3 xs ys zs)
        (i + (meshgridRavel3 xs ys zs).length) =
      assignedGridPoint (meshgridRavel3 xs ys zs) i := by
  refine ⟨length_meshgridRavel3 xs ys zs, ?_, ?_⟩
  · have hlen : (buildSchedule (meshgridRavel3 xs ys zs)
        (roundRobinPeriod (meshgridRavel3 xs ys zs).length false) false
        noise).length = roundRobinPeriod (meshgridRavel3 xs ys zs).length false := by
      simp [buildSchedule]
    rw [List.getD_eq_getElem _ _ (by rw [hlen]; exact ht)]
    simp [buildSchedule]
  · unfold assignedGridPoint
    rw [Nat.add_mod_right]

/-- Witness for `grid_cycle_product_and_round_robin` on a concrete 2×1×3
grid at schedule index 2 and round-robin pair (5, 5 + 6). -/
theorem grid_cycle_product_and_round_robin_witness :
    (meshgridRavel3 [0, 1] [0] [0, 1, 2]).length =
      [0, 1].length * [0].length * [0, 1, 2].length ∧
    (buildSchedule (meshgridRavel3 [0, 1] [0] [0, 1, 2])
        (roundRobinPeriod (meshgridRavel3 [0, 1] [0] [0, 1, 2]).length false) false
        (fun _ => (0, 0, 0))).getD 2 (0, 0, 0) =
      assignedGridPoint (meshgridRavel3 [0, 1] [0] [0, 1, 2]) 2 ∧
    assignedGridPoint (meshgridRavel3 [0, 1] [0] [0, 1, 2])
        (5 + (meshgridRavel3 [0, 1] [0] [0, 1, 2]).length) =
      assignedGridPoint (meshgridRavel3 [0, 1] [0] [0, 1, 2]) 5 :=
  grid_cycle_product_and_round_robin [0, 1] [0] [0, 1, 2] (fun _ => (0, 0, 0)) 5 2
    (by simp [meshgridRavel3, roundRobinPeriod])

/-! ## Claim C8 -/

/-- A sampler constructed with an inverted x range `(0.2, -0.3)`. -/
def invertedRangeSampler : UniformRandomPegsSampler :=
  { x_range := some (1 / 5, -(3 / 10)), y_range := some (0, 0), z_range := some (0, 0),
    ensure_object_boundary_in_range := false, z_rotation := false,
    table_size := (0, 0, 0), table_top_offset := (0, 0, 0) }

open UniformRandomPegsSampler in
/-- Refutes C8 as stated: no `ConfigurationError` exists anywhere in the
code. A sampler built with the inverted range `(0.2, -0.3)` is constructed
without complaint and `sample()` succeeds on it (silently normalizing the
range via `min`/`max`), and a zero grid point count flows through grid and
schedule construction producing empty results, not an error. -/
theorem malformed_config_no_error_counterexample :
    sample invertedRangeSampler [smallPeg] (fun _ => 0) =
      .ok ([(-(3 / 10), 0, 0)], [.ident]) ∧
    range_to_uniform_grid 0 1 0 = [] ∧
    meshgridRavel3 (range_to_uniform_grid 0 1 0) [0] [0] = [] ∧
    buildSchedule (meshgridRavel3 (range_to_uniform_grid 0 1 0) [0] [0])
      (roundRobinPeriod
        (meshgridRavel3 (range_to_uniform_grid 0 1 0) [0] [0]).length false)
      false (fun _ => (0, 0, 0)) = [] := by
  refine ⟨?_, rfl, ?_, ?_⟩
  · have hok := sample_single invertedRangeSampler smallPeg (fun _ => 0)
    have hc : candidatePos invertedRangeSampler smallPeg (fun _ => 0) 0 =
        ((-(3 / 10) : ℚ), (0 : ℚ), (0 : ℚ)) := by
      norm_num [candidatePos, sample_x, sample_y, sample_z, uniformDraw,
        invertedRangeSampler, smallPeg]
    rw [hc] at hok
    exact hok
  · simp [meshgridRavel3, range_to_uniform_grid]
  · simp [buildSchedule, meshgridRavel3, range_to_uniform_grid, roundRobinPeriod]

open UniformRandomPegsSampler in
/-- C8 (amended): malformed sampler configurations are accepted silently, not
rejected: an inverted range behaves exactly like its normalized counterpart
(`min`/`max` at sampling time), and a zero grid point count yields an empty
base cycle and an empty round-robin schedule without raising anything. -/
theorem malformed_config_accepted_silently (s : UniformRandomPegsSampler)
    (a b r u : ℚ) (ys zs : List ℚ) (noise : ℕ → ℚ × ℚ × ℚ) (perturb : Bool) :
    sample_x { s with x_range := some (a, b) } r u =
      sample_x { s with x_range := some (b, a) } r u ∧
    sample_y { s with y_range := some (a, b) } r u =
      sample_y { s with y_range := some (b, a) } r u ∧
    range_to_uniform_grid a b 0 = [] ∧
    meshgridRavel3 [] ys zs = [] ∧
    buildSchedule (meshgridRavel3 [] ys zs)
      (roundRobinPeriod (meshgridRavel3 [] ys zs).length perturb) perturb noise = [] := by
  refine ⟨?_, ?_, rfl, ?_, ?_⟩
  · simp [sample_x, min_comm, max_comm]
  · simp [sample_y, min_comm, max_comm]
  · simp [meshgridRavel3]
  · have h : meshgridRavel3 [] ys zs = [] := by simp [meshgridRavel3]
    rw [h]
    cases perturb <;> simp [buildSchedule, roundRobinPeriod]

/-! ## Claim C9: scene composition (`PegsTask.merge_objects` and
`PegsTask.place_objects`) -/

/-- Attribute values of a scene node. Plain XML string attributes are `str`;
the serialized arrays written by `place_objects`
(`array_to_string(pos_arr[i])`, from the `model_util` module, which is not
under `src/`) are modelled from the spec as injective wrappers `vec`/`rot`
keeping the serialized array itself. -/
inductive AVal where
  | str (v : String)
  | vec (v : Vec3)
  | rot (q : UniformRandomPegsSampler.SampledQuat)

/-- An MJCF/XML scene node (`xml.etree.ElementTree` element): tag,
attribute list, children. -/
inductive Elem where
  | mk (tag : String) (attrs : List (String × AVal)) (children : List Elem)

def Elem.tag : Elem → String
  | .mk t _ _ => t

def Elem.attrs : Elem → List (String × AVal)
  | .mk _ a _ => a

def Elem.children : Elem → List Elem
  | .mk _ _ c => c

/-- `ElementTree` attribute update (`e.set(key, value)`): replace the value
of an existing key in place, else append the pair. -/
def setAttrList : List (String × AVal) → String → AVal → List (String × AVal)
  | [], k, v => [(k, v)]
  | (k2, v2) :: rest, k, v =>
    if k2 = k then (k, v) :: rest else (k2, v2) :: setAttrList rest k v

def getAttrList : List (String × AVal) → String → Option AVal
  | [], _ => none
  | (k2, v2) :: rest, k => if k2 = k then some v2 else getAttrList rest k

def Elem.set : Elem → String → AVal → Elem
  | .mk t a c, k, v => .mk t (setAttrList a k v) c

/-- `ElementTree` attribute read (`e.get(key)`). -/
def Elem.get (e : Elem) (k : String) : Option AVal :=
  getAttrList e.attrs k

/-- `ElementTree` child append (`e.append(child)`). -/
def Elem.appendChild : Elem → Elem → Elem
  | .mk t a c, child => .mk t a (c ++ [child])

theorem getAttrList_setAttrList_self (l : List (String × AVal)) (k : String) (v : AVal) :
    getAttrList (setAttrList l k v) k = some v := by
  induction l with
  | nil => simp [setAttrList, getAttrList]
  | cons p rest ih =>
    obtain ⟨k2, v2⟩ := p
    by_cases h : k2 = k <;> simp [setAttrList, getAttrList, h, ih]

theorem getAttrList_setAttrList_ne (l : List (String × AVal)) (k k2 : String) (v : AVal)
    (h : k2 ≠ k) : getAttrList (setAttrList l k2 v) k = getAttrList l k := by
  induction l with
  | nil => simp [setAttrList, getAttrList, h]
  | cons p rest ih =>
    obtain ⟨k3, v3⟩ := p
    by_cases h3 : k3 = k2
    · subst h3
      simp [setAttrList, getAttrList, h]
    · simp only [setAttrList, if_neg h3, getAttrList]
      by_cases h4 : k3 = k <;> simp [h4, ih]

/-- Modelled from the spec: `joint(name=obj_name, type='free',
damping='0.0005')` (the `joint` helper lives in `model_util`, not under
`src/`) builds a `<joint/>` element carrying exactly those attributes. -/
def freeJoint (name : String) : Elem :=
  .mk "joint" [("name", .str name), ("type", .str "free"), ("damping", .str "0.0005")] []

/-- One entry of the ordered `mujoco_objects` mapping: geometric metadata plus
the collision fragment produced by `obj_mjcf.get_collision(name=obj_name,
site=True)` and the asset nodes merged by `merge_asset` (both generated by
object classes not under `src/`, carried here as data). -/
structure MujocoXMLObject where
  horizontal_radius : ℚ
  bottom_offset : Vec3
  collision : Elem
  assets : List Elem

/-- The `PegsTask` state touched by `merge_objects`: world-body children,
the `objects` list (xml manifestations, index-aligned with the mapping),
merged assets, and the running `max_horizontal_radius`. -/
structure PegsTask where
  worldbody : List Elem
  objects : List Elem
  asset : List Elem
  max_horizontal_radius : ℚ

/-- The loop body of `merge_objects` over the ordered mapping entries:
`merge_asset(obj_mjcf)`; `obj = obj_mjcf.get_collision(...)`;
`obj.append(joint(name=obj_name, type='free', damping='0.0005'))`;
`self.objects.append(obj)`; `self.worldbody.append(obj)`;
`self.max_horizontal_radius = max(self.max_horizontal_radius,
obj_mjcf.get_horizontal_radius())`. -/
def mergeObjectsLoop : List (String × MujocoXMLObject) → PegsTask → PegsTask
  | [], st => st
  | (obj_name, obj_mjcf) :: rest, st =>
    let obj := obj_mjcf.collision.appendChild (freeJoint obj_name)
    mergeObjectsLoop rest
      { worldbody := st.worldbody ++ [obj],
        objects := st.objects ++ [obj],
        asset := st.asset ++ obj_mjcf.assets,
        max_horizontal_radius := max st.max_horizontal_radius obj_mjcf.horizontal_radius }

/-- `PegsTask.merge_objects`: reset `objects` to `[]` and
`max_horizontal_radius` to `0`, then run the loop over the mapping in
insertion order. -/
def PegsTask.merge_objects (st : PegsTask)
    (mujoco_objects : List (String × MujocoXMLObject)) : PegsTask :=
  mergeObjectsLoop mujoco_objects
    { st with objects := [], max_horizontal_radius := 0 }

/-- The composed node for one mapping entry: its collision fragment with the
free joint appended. -/
def composedObject (p : String × MujocoXMLObject) : Elem :=
  p.2.collision.appendChild (freeJoint p.1)

theorem mergeObjectsLoop_spec (mapping : List (String × MujocoXMLObject)) :
    ∀ st : PegsTask,
      (mergeObjectsLoop mapping st).objects =
        st.objects ++ mapping.map composedObject ∧
      (mergeObjectsLoop mapping st).worldbody =
        st.worldbody ++ mapping.map composedObject ∧
      (mergeObjectsLoop mapping st).max_horizontal_radius =
        mapping.foldl (fun m p => max m p.2.horizontal_radius)
          st.max_horizontal_radius := by
  induction mapping with
  | nil => intro st; simp [mergeObjectsLoop]
  | cons p rest ih =>
    intro st
    obtain ⟨n, o⟩ := p
    obtain ⟨h1, h2, h3⟩ := ih
      { worldbody := st.worldbody ++ [o.collision.appendChild (freeJoint n)],
        objects := st.objects ++ [o.collision.appendChild (freeJoint n)],
        asset := st.asset ++ o.assets,
        max_horizontal_radius := max st.max_horizontal_radius o.horizontal_radius }
    refine ⟨?_, ?_, ?_⟩
    · rw [mergeObjectsLoop, h1]
      simp [composedObject, List.append_assoc]
    · rw [mergeObjectsLoop, h2]
      simp [composedObject, List.append_assoc]
    · rw [mergeObjectsLoop, h3]
      simp [List.foldl_cons]

/-- `PegsTask.place_objects`: `pos_arr, quat_arr = self.initializer.sample()`
delivers one position and one quaternion per object; then
`for i in range(len(self.objects)):` set the `pos` and `quat` attributes of
the i-th object node from index i of the arrays. -/
def place_objects (objects : List Elem) (pos_arr : List Vec3)
    (quat_arr : List UniformRandomPegsSampler.SampledQuat) : List Elem :=
  (List.range objects.length).map fun i =>
    ((objects.getD i (.mk "" [] [])).set "pos" (.vec (pos_arr.getD i (0, 0, 0)))).set
      "quat" (.rot (quat_arr.getD i .ident))

/-- Number of `<joint>` children of a node. -/
def jointCount (e : Elem) : ℕ :=
  (e.children.filter (fun c => c.tag == "joint")).length

theorem jointCount_appendChild_freeJoint (e : Elem) (n : String) :
    jointCount (e.appendChild (freeJoint n)) = jointCount e + 1 := by
  cases e with
  | mk t a c =>
    simp [jointCount, Elem.appendChild, Elem.children, List.filter_append, freeJoint, Elem.tag]

/-- C9: `merge_objects` preserves the insertion order of the mapping: the
composed `objects` list is index-aligned with it, each node being that
object's collision fragment with exactly one appended free joint named after
the object (type `free`, damping `0.0005`); the world body receives the same
nodes in the same order; `max_horizontal_radius` is the running maximum of
the radii; and `place_objects` writes the sampler's i-th position and i-th
quaternion onto the i-th node, keeping the sampler output index-aligned with
the composed object list. -/
theorem merge_objects_insertion_order_alignment (st : PegsTask)
    (mapping : List (String × MujocoXMLObject)) (pos_arr : List Vec3)
    (quat_arr : List UniformRandomPegsSampler.SampledQuat) (i : ℕ)
    (hi : i < mapping.length) :
    (st.merge_objects mapping).objects.length = mapping.length ∧
    (st.merge_objects mapping).objects = mapping.map composedObject ∧
    (st.merge_objects mapping).worldbody =
      st.worldbody ++ (st.merge_objects mapping).objects ∧
    (st.merge_objects mapping).max_horizontal_radius =
      mapping.foldl (fun m p => max m p.2.horizontal_radius) 0 ∧
    (st.merge_objects mapping).objects.getD i (.mk "" [] []) =
      (mapping.getD i ("", ⟨0, (0, 0, 0), .mk "" [] [], []⟩)).2.collision.appendChild
        (freeJoint (mapping.getD i ("", ⟨0, (0, 0, 0), .mk "" [] [], []⟩)).1) ∧
    (jointCount (mapping.getD i ("", ⟨0, (0, 0, 0), .mk "" [] [], []⟩)).2.collision = 0 →
      jointCount ((st.merge_objects mapping).objects.getD i (.mk "" [] [])) = 1) ∧
    (place_objects (st.merge_objects mapping).objects pos_arr quat_arr).length =
      (st.merge_objects mapping).objects.length ∧
    ((place_objects (st.merge_objects mapping).objects pos_arr quat_arr).getD i
        (.mk "" [] [])).get "pos" = some (.vec (pos_arr.getD i (0, 0, 0))) ∧
    ((place_objects (st.merge_objects mapping).objects pos_arr quat_arr).getD i
        (.mk "" [] [])).get "quat" = some (.rot (quat_arr.getD i .ident)) := by
  obtain ⟨h1, h2, h3⟩ := mergeObjectsLoop_spec mapping
    { st with objects := [], max_horizontal_radius := 0 }
  have hobjs : (st.merge_objects mapping).objects = mapping.map composedObject := by
    rw [PegsTask.merge_objects, h1]
    simp
  have hlen : (st.merge_objects mapping).objects.length = mapping.length := by
    rw [hobjs, List.length_map]
  have hgetD : (st.merge_objects mapping).objects.getD i (.mk "" [] []) =
      composedObject (mapping.getD i ("", ⟨0, (0, 0, 0), .mk "" [] [], []⟩)) := by
    rw [hobjs, List.getD_eq_getElem _ _ (by rw [List.length_map]; exact hi),
      List.getElem_map, List.getD_eq_getElem _ _ hi]
  have hplen : (place_objects (st.merge_objects mapping).objects pos_arr quat_arr).length =
      (st.merge_objects mapping).objects.length := by
    rw [place_objects, List.length_map, List.length_range]
  have hpget : (place_objects (st.merge_objects mapping).objects pos_arr quat_arr).getD i
      (.mk "" [] []) =
      (((st.merge_objects mapping).objects.getD i (.mk "" [] [])).set "pos"
        (.vec (pos_arr.getD i (0, 0, 0)))).set "quat" (.rot (quat_arr.getD i .ident)) := by
    rw [place_objects,
      List.getD_eq_getElem _ _ (by rw [List.length_map, List.length_range, hlen]; exact hi),
      List.getElem_map, List.getElem_range]
  refine ⟨hlen, hobjs, ?_, ?_, ?_, ?_, hplen, ?_, ?_⟩
  · rw [hobjs, PegsTask.merge_objects, h2]
  · rw [PegsTask.merge_objects, h3]
  · rw [hgetD, composedObject]
  · intro hj
    rw [hgetD, composedObject, jointCount_appendChild_freeJoint, hj]
  · rw [hpget]
    obtain ⟨t, a, c⟩ := (st.merge_objects mapping).objects.getD i (.mk "" [] [])
    simp only [Elem.set, Elem.get, Elem.attrs]
    rw [getAttrList_setAttrList_ne _ _ _ _ (by decide), getAttrList_setAttrList_self]
  · rw [hpget]
    obtain ⟨t, a, c⟩ := (st.merge_objects mapping).objects.getD i (.mk "" [] [])
    simp only [Elem.set, Elem.get, Elem.attrs]
    rw [getAttrList_setAttrList_self]

/-- Concrete two-object mapping for the C9 witness. -/
def demoMapping : List (String × MujocoXMLObject) :=
  [("peg1", ⟨1 / 2, (0, 0, 0), .mk "body" [("name", .str "peg1")] [], []⟩),
   ("peg2", ⟨1 / 4, (0, 0, 0), .mk "body" [("name", .str "peg2")] [], []⟩)]

/-- Concrete task state for the C9 witness. -/
def demoTask : PegsTask :=
  { worldbody := [], objects := [], asset := [], max_horizontal_radius := 0 }

/-- Concrete sampler outputs for the C9 witness. -/
def demoPos : List Vec3 := [(1, 2, 3), (4, 5, 6)]

/-- Concrete sampler orientations for the C9 witness. -/
def demoQuat : List UniformRandomPegsSampler.SampledQuat := [.ident, .zrot (1 / 2)]

/-- Witness for `merge_objects_insertion_order_alignment` on a concrete
two-object mapping at index 1. -/
theorem merge_objects_insertion_order_alignment_witness :
    (demoTask.merge_objects demoMapping).objects.length = demoMapping.length ∧
    (demoTask.merge_objects demoMapping).objects = demoMapping.map composedObject ∧
    (demoTask.merge_objects demoMapping).worldbody =
      demoTask.worldbody ++ (demoTask.merge_objects demoMapping).objects ∧
    (demoTask.merge_objects demoMapping).max_horizontal_radius =
      demoMapping.foldl (fun m p => max m p.2.horizontal_radius) 0 ∧
    (demoTask.merge_objects demoMapping).objects.getD 1 (.mk "" [] []) =
      (demoMapping.getD 1 ("", ⟨0, (0, 0, 0), .mk "" [] [], []⟩)).2.collision.appendChild
        (freeJoint (demoMapping.getD 1 ("", ⟨0, (0, 0, 0), .mk "" [] [], []⟩)).1) ∧
    (jointCount (demoMapping.getD 1 ("", ⟨0, (0, 0, 0), .mk "" [] [], []⟩)).2.collision = 0 →
      jointCount ((demoTask.merge_objects demoMapping).objects.getD 1 (.mk "" [] [])) = 1) ∧
    (place_objects (demoTask.merge_objects demoMapping).objects demoPos demoQuat).length =
      (demoTask.merge_objects demoMapping).objects.length ∧
    ((place_objects (demoTask.merge_objects demoMapping).objects demoPos demoQuat).getD 1
        (.mk "" [] [])).get "pos" = some (.vec (demoPos.getD 1 (0, 0, 0))) ∧
    ((place_objects (demoTask.merge_objects demoMapping).objects demoPos demoQuat).getD 1
        (.mk "" [] [])).get "quat" = some (.rot (demoQuat.getD 1 .ident)) :=
  merge_objects_insertion_order_alignment demoTask demoMapping demoPos demoQuat 1
    (by simp [demoMapping])

end RobosuitePlacement
